import Mathlib

/-!
Verification development for the LOBSTER-based coordination-environment
engine (`pymatgen/io/lobster/lobsterenv.py`).

The Python source is shallowly embedded below: floating-point values are
idealised as exact rationals (`ℚ`), the mutable per-site evaluation loop
becomes explicit list recursion, and fallible operations return `Except`.
External collaborators (the periodic neighbour search, the lattice, the
bond-strength collection's filtering query) are modelled from their
documented contracts; everything else is translated directly from the
source of `LobsterNeighbors` and `LobsterLightStructureEnvironments`.
-/

/-- Error taxonomy of the engine (spec §7).  The Python code raises
`ValueError` in all of these situations; the constructors record which
of the documented error classes applies. -/
inductive LobsterError where
  | badConfig
  | missingValence
  | emptySelection
  | inconsistentImage
deriving DecidableEq

instance {e a : Type} [DecidableEq e] [DecidableEq a] : DecidableEq (Except e a) :=
  fun x y =>
    match x, y with
    | .ok u, .ok v =>
      match decEq u v with
      | isTrue h => isTrue (by rw [h])
      | isFalse h => isFalse (fun hc => h (Except.ok.inj hc))
    | .error u, .error v =>
      match decEq u v with
      | isTrue h => isTrue (by rw [h])
      | isFalse h => isFalse (fun hc => h (Except.error.inj hc))
    | .ok _, .error _ => isFalse (fun hc => Except.noConfusion hc)
    | .error _, .ok _ => isFalse (fun hc => Except.noConfusion hc)

/-- Extended rational: a threshold bound that may be `-inf` or `+inf`
(Python `float("inf")`). -/
inductive XR where
  | negInf
  | fin (q : ℚ)
  | posInf
deriving DecidableEq

/-- Bound `x` is at most the value `q` (used for the lower threshold). -/
def XR.leQ (x : XR) (q : ℚ) : Bool :=
  match x with
  | .negInf => true
  | .fin a => decide (a ≤ q)
  | .posInf => false

/-- Value `q` is at most the bound `x` (used for the upper threshold). -/
def XR.geQ (x : XR) (q : ℚ) : Bool :=
  match x with
  | .negInf => false
  | .fin a => decide (q ≤ a)
  | .posInf => true

/-!
Arithmetic on `ℚ` is written through the explicit `num`/`den`
normal-form operations below.  They are provably equal to the standard
field operations (bridge lemmas `qadd_eq` …), but unlike those they are
kernel-reducible, so every embedded function can be evaluated on
concrete inputs by `decide`/`rfl`.
-/

/-- Kernel-reducible addition on `ℚ`. -/
def qadd (a b : ℚ) : ℚ :=
  mkRat (a.num * b.den + b.num * a.den) (a.den * b.den)

/-- Kernel-reducible subtraction on `ℚ`. -/
def qsub (a b : ℚ) : ℚ :=
  mkRat (a.num * b.den - b.num * a.den) (a.den * b.den)

/-- Kernel-reducible multiplication on `ℚ`. -/
def qmul (a b : ℚ) : ℚ :=
  mkRat (a.num * b.num) (a.den * b.den)

/-- Kernel-reducible negation on `ℚ`. -/
def qneg (a : ℚ) : ℚ :=
  mkRat (-a.num) a.den

/-- Kernel-reducible absolute value on `ℚ`. -/
def qabs (q : ℚ) : ℚ :=
  if q < 0 then qneg q else q

/-- Embedding of `numpy.isclose(a, b, rtol=1e-4)` with the default
absolute tolerance `atol = 1e-8`: `|a - b| <= atol + rtol * |b|`.
This is the distance-matching test of `_find_environments`. -/
def npIscloseDist (a b : ℚ) : Bool :=
  decide (qabs (qsub a b) ≤ qadd (mkRat 1 100000000) (qmul (mkRat 1 10000) (qabs b)))

/-- Embedding of `numpy.allclose(valences, zeros_like(valences))` with
default tolerances (`rtol = 1e-5`, `atol = 1e-8`); against zero the
relative part vanishes, leaving `|v| <= 1e-8` for every entry. -/
def allcloseZero (l : List ℚ) : Bool :=
  l.all fun v => decide (qabs v ≤ mkRat 1 100000000)

/-- Python's banker's rounding (`round`, also `numpy.round` to 0 digits):
round half to even.  `Rat.floor` is the executable floor on `ℚ`. -/
def roundHalfEven (q : ℚ) : ℤ :=
  let f := Rat.floor q
  let r := qsub q (f : ℚ)
  if r < mkRat 1 2 then f
  else if mkRat 1 2 < r then f + 1
  else if f % 2 = 0 then f else f + 1

/-- Head part of `_split_string`: the atom string with trailing digits
removed (`s.rstrip("0123456789")`). -/
def splitStringHead (s : String) : String :=
  ⟨(s.data.reverse.dropWhile Char.isDigit).reverse⟩

/-- Tail part of `_split_string`: the trailing digits of the atom string. -/
def splitStringTail (s : String) : String :=
  ⟨(s.data.reverse.takeWhile Char.isDigit).reverse⟩

/-- Value of a (decimal) digit string, as Python `int`. -/
def digitsVal (l : List Char) : ℕ :=
  l.foldl (fun n c => 10 * n + (c.toNat - 48)) 0

/-- `_get_atomnumber`: the 0-based site index encoded in an atom string
such as `"Na1"` (ordinal minus one).  Atom strings are assumed
well-formed (nonempty digit tail, ordinal at least 1). -/
def atomIndexOf (s : String) : ℕ :=
  digitsVal (splitStringTail s).data - 1

/-- One bond record of the collection (`IcohpValue`): the two endpoint
atom strings, the bond length, the spin-summed interaction strength
(`summed_icohp`), the unique label, and the lattice translation. -/
structure IcohpRecord where
  atom1 : String
  atom2 : String
  length : ℚ
  icohpSummed : ℚ
  label : String
  translation : ℤ × ℤ × ℤ
deriving DecidableEq

/-- Placeholder record used for out-of-range positional lookups. -/
def defaultRecord : IcohpRecord :=
  ⟨"", "", 0, 0, "", (0, 0, 0)⟩

/-- Valence of the endpoint encoded by the atom string `s`, looked up in
the valence list (`self.valences[atomnr]`). -/
def valOf (valences : List ℚ) (s : String) : ℚ :=
  valences.getD (atomIndexOf s) 0

/-- Modelled from the spec: `IcohpCollection.get_icohp_dict_of_site`
(the bond-strength collection's per-site query, §4.2) is not part of the
sources under verification.  It keeps the records touching `isite` whose
bond length is at most the fixed maximum 6.0, whose summed strength lies
inside `[lower, upper]`, and — when an element restriction is given —
whose other endpoint's element belongs to the restriction set. -/
def getIcohps (records : List IcohpRecord) (isite : ℕ) (lower upper : XR)
    (onlyBondsTo : Option (List String)) : List IcohpRecord :=
  records.filter fun r =>
    let a1 := atomIndexOf r.atom1
    let a2 := atomIndexOf r.atom2
    (decide (a1 = isite) || decide (a2 = isite)) &&
      decide (r.length ≤ 6) &&
      lower.leQ r.icohpSummed && upper.geQ r.icohpSummed &&
      (match onlyBondsTo with
       | none => true
       | some els =>
          decide ((if a1 = isite then splitStringHead r.atom2
                   else splitStringHead r.atom1) ∈ els))

/-- The per-record predicate of the seven additional conditions.  Branch
for branch this is the test applied both in
`_find_relevant_atoms_additional_condition` and in the adaptation
branches of `_get_limit_from_extremum`. -/
def condPred (cond : ℕ) (valences : List ℚ) (r : IcohpRecord) : Bool :=
  let val1 := valOf valences r.atom1
  let val2 := valOf valences r.atom2
  match cond with
  | 0 => true
  | 1 => (decide (val1 < 0) && decide (0 < val2)) ||
         (decide (val2 < 0) && decide (0 < val1))
  | 2 => decide (splitStringHead r.atom1 ≠ splitStringHead r.atom2)
  | 3 => ((decide (val1 < 0) && decide (0 < val2)) ||
          (decide (val2 < 0) && decide (0 < val1))) &&
         decide (splitStringHead r.atom1 ≠ splitStringHead r.atom2)
  | 4 => decide (splitStringHead r.atom1 = "O") ||
         decide (splitStringHead r.atom2 = "O")
  | 5 => (decide (0 < val1) && decide (0 < val2)) ||
         (decide (val1 < 0) && decide (val2 < 0))
  | 6 => decide (0 < val1) && decide (0 < val2)
  | _ => false

/-- `_find_relevant_atoms_additional_condition`: walk the candidate
records of a site and keep, in order, those passing the additional
condition; each kept record contributes its label, its length, the
*other* endpoint's site index, and its summed strength (parallel lists
`keys, lengths, neighbors, icohps` in the Python return order). -/
def findRelevantAtoms (isite : ℕ) (cond : ℕ) (valences : List ℚ) :
    List IcohpRecord → List String × List ℚ × List ℕ × List ℚ
  | [] => ([], [], [], [])
  | r :: rs =>
    let rest := findRelevantAtoms isite cond valences rs
    if condPred cond valences r then
      if atomIndexOf r.atom1 = isite then
        (r.label :: rest.1, r.length :: rest.2.1,
         atomIndexOf r.atom2 :: rest.2.2.1, r.icohpSummed :: rest.2.2.2)
      else if atomIndexOf r.atom2 = isite then
        (r.label :: rest.1, r.length :: rest.2.1,
         atomIndexOf r.atom1 :: rest.2.2.1, r.icohpSummed :: rest.2.2.2)
      else rest
    else rest

/-! Geometry model.  Fractional/Cartesian coordinates are rational
triples; the lattice and the periodic neighbour search are external
collaborators (pymatgen core), modelled from the spec (§6). -/

/-- A rational coordinate triple. -/
abbrev Vec3 := ℚ × ℚ × ℚ

/-- An integer lattice-translation triple. -/
abbrev Cell3 := ℤ × ℤ × ℤ

/-- Componentwise difference of coordinate triples. -/
def v3sub (a b : Vec3) : Vec3 :=
  (qsub a.1 b.1, qsub a.2.1 b.2.1, qsub a.2.2 b.2.2)

/-- Componentwise sum of coordinate triples. -/
def v3add (a b : Vec3) : Vec3 :=
  (qadd a.1 b.1, qadd a.2.1 b.2.1, qadd a.2.2 b.2.2)

/-- A translation triple viewed as rational coordinates. -/
def cellToVec (c : Cell3) : Vec3 :=
  ((c.1 : ℚ), (c.2.1 : ℚ), (c.2.2 : ℚ))

/-- Componentwise negation of a translation triple (`-np.asarray(t)`). -/
def negCell (t : Cell3) : Cell3 :=
  (-t.1, -t.2.1, -t.2.2)

/-- Componentwise difference of translation triples. -/
def subCell (a b : Cell3) : Cell3 :=
  (a.1 - b.1, a.2.1 - b.2.1, a.2.2 - b.2.2)

/-- Modelled from the spec: the external `PeriodicSite.to_unit_cell`
wraps each fractional coordinate into `[0, 1)`. -/
def wrapFrac (q : ℚ) : ℚ :=
  qsub q ((Rat.floor q : ℤ) : ℚ)

/-- Wrap a fractional-coordinate triple into the unit cell. -/
def toUnitCellV (v : Vec3) : Vec3 :=
  (wrapFrac v.1, wrapFrac v.2.1, wrapFrac v.2.2)

/-- The shared periodic lattice: three basis vectors. -/
structure CrystalLattice where
  va : Vec3
  vb : Vec3
  vc : Vec3

/-- Modelled from the spec: the external
`lattice.get_cartesian_coords` maps fractional coordinates to Cartesian
ones as the linear combination of the basis vectors. -/
def cartesianOf (lat : CrystalLattice) (v : Vec3) : Vec3 :=
  (qadd (qadd (qmul v.1 lat.va.1) (qmul v.2.1 lat.vb.1)) (qmul v.2.2 lat.vc.1),
   qadd (qadd (qmul v.1 lat.va.2.1) (qmul v.2.1 lat.vb.2.1)) (qmul v.2.2 lat.vc.2.1),
   qadd (qadd (qmul v.1 lat.va.2.2) (qmul v.2.1 lat.vb.2.2)) (qmul v.2.2 lat.vc.2.2))

/-- One result of the periodic neighbour search
(`structure.get_sites_in_sphere(..., include_image=True,
include_index=True)`): the image site's fractional coordinates, its
distance from the centre, its originating unit-cell site index, and its
image cell. -/
structure GeoResult where
  frac : Vec3
  dist : ℚ
  index : ℕ
  cell : Cell3
deriving DecidableEq

/-- Comparison key of the Python `sorted(..., key=lambda x: x[1])`:
ascending distance. -/
def geoLe (a b : GeoResult) : Prop :=
  a.dist ≤ b.dist

instance : DecidableRel geoLe :=
  fun a b => inferInstanceAs (Decidable (a.dist ≤ b.dist))

instance : IsTotal GeoResult geoLe :=
  ⟨fun a b => le_total a.dist b.dist⟩

instance : IsTrans GeoResult geoLe :=
  ⟨fun _ _ _ hab hbc => le_trans hab hbc⟩

/-- The stable ascending-distance sort of the search results.
`List.insertionSort` is a stable sorting algorithm, hence a faithful
model of Python's stable `sorted`. -/
def sortGeo (l : List GeoResult) : List GeoResult :=
  List.insertionSort geoLe l

/-- The in-cell site wrapped and shifted by the image cell, in Cartesian
coordinates: the `new_coords` computation of `_find_environments`. -/
def geoNewCoords (lat : CrystalLattice) (g : GeoResult) : Vec3 :=
  cartesianOf lat (v3add (toUnitCellV g.frac) (cellToVec g.cell))

/-- A site of the structure, reduced to what `_find_environments`
consumes: the external periodic neighbour search around it, indexed by
the search radius. -/
structure SiteModel where
  geoSearch : ℚ → List GeoResult

/-- Scan the not-yet-matched candidate pool (parallel `(distance,
neighbour index)` pairs) for the first entry matching a search result,
and remove it: the inner `for idist, dist in enumerate(...)` loop with
its `del`/`break`. -/
def removeFirstMatch (geoDist : ℚ) (geoIdx : ℕ) :
    List (ℚ × ℕ) → Option (List (ℚ × ℕ))
  | [] => none
  | p :: rest =>
    if npIscloseDist p.1 geoDist && decide (p.2 = geoIdx) then some rest
    else
      match removeFirstMatch geoDist geoIdx rest with
      | some rest2 => some (p :: rest2)
      | none => none

/-- Walk the distance-sorted search results, binding each to the first
matching pool entry (consuming it) and discarding unmatched results:
the outer `for ineigh, neigh in enumerate(neighbors_by_distance)` loop. -/
def resolveWalk : List GeoResult → List (ℚ × ℕ) → List GeoResult
  | [], _ => []
  | g :: gs, pool =>
    match removeFirstMatch g.dist g.index pool with
    | some pool2 => g :: resolveWalk gs pool2
    | none => resolveWalk gs pool

/-- `np.max` of a nonempty list (0 as junk value on the empty list,
which `_find_environments` never passes). -/
def listMaxQ : List ℚ → ℚ
  | [] => 0
  | x :: xs => xs.foldl max x

/-- The per-site result record of `_find_environments`: one entry of
each of the six parallel result lists. -/
structure SiteEnv where
  icohps : List ℚ
  keys : List String
  lengths : List ℚ
  neighisite : List ℕ
  neighsite : List GeoResult
  coords : List Vec3
deriving DecidableEq

/-- The body of the per-site loop of `_find_environments`: select the
candidate records, and if any survive, search the sphere of radius
`max(lengths) + 0.5`, sort by distance, and run the matching walk. -/
def findEnvSite (records : List IcohpRecord) (valences : List ℚ) (cond : ℕ)
    (lower upper : XR) (onlyBondsTo : Option (List String)) (lat : CrystalLattice)
    (idx : ℕ) (site : SiteModel) : SiteEnv :=
  let icohpsD := getIcohps records idx lower upper onlyBondsTo
  let sel := findRelevantAtoms idx cond valences icohpsD
  let keys := sel.1
  let lengths := sel.2.1
  let neighbors := sel.2.2.1
  let selIcohps := sel.2.2.2
  if neighbors.isEmpty then ⟨[], [], [], [], [], []⟩
  else
    let geoSorted := sortGeo (site.geoSearch (qadd (listMaxQ lengths) (mkRat 1 2)))
    let resolved := resolveWalk geoSorted (lengths.zip neighbors)
    ⟨selIcohps, keys, lengths, resolved.map (·.index), resolved,
     resolved.map (geoNewCoords lat)⟩

/-- `_find_environments`: run the per-site resolution over every site of
the structure. -/
def findEnvironments (lat : CrystalLattice) (sites : List SiteModel)
    (records : List IcohpRecord) (valences : List ℚ) (cond : ℕ)
    (lower upper : XR) (onlyBondsTo : Option (List String)) : List SiteEnv :=
  sites.enum.map fun p =>
    findEnvSite records valences cond lower upper onlyBondsTo lat p.1 p.2

/-- `_adapt_extremum_to_add_cond`: extremum (minimum for ICOHPs, maximum
for ICOOPs/ICOBIs) of the given strength list, times the percentage.
Python's `min`/`max` raise on an empty list — the EmptySelection error. -/
def adaptExtremumToAddCond (areCoops areCobis : Bool) (listIcohps : List ℚ)
    (percentage : ℚ) : Except LobsterError ℚ :=
  match listIcohps with
  | [] => .error .emptySelection
  | x :: xs =>
    .ok (qmul (if !areCoops && !areCobis then xs.foldl min x else xs.foldl max x)
          percentage)

/-- Modelled from the spec: the external
`IcohpCollection.extremum_icohpvalue(summed_spin_channels=True)` is the
extremum (minimum for ICOHPs, maximum for ICOOPs/ICOBIs) of the summed
strengths of all records (§4.1). -/
def extremumIcohpvalue (areCoops areCobis : Bool) (records : List IcohpRecord) :
    Except LobsterError ℚ :=
  match records.map (·.icohpSummed) with
  | [] => .error .emptySelection
  | x :: xs =>
    .ok (if !areCoops && !areCobis then xs.foldl min x else xs.foldl max x)

/-- The `extremum_based` computation of `_get_limit_from_extremum`:
global extremum times percentage when not adapting (or condition 0),
otherwise the extremum over the records passing the additional
condition. -/
def extremumBased (records : List IcohpRecord) (valences : List ℚ)
    (percentage : ℚ) (adapt : Bool) (cond : ℕ) (areCoops areCobis : Bool) :
    Except LobsterError ℚ :=
  if !adapt || cond == 0 then
    match extremumIcohpvalue areCoops areCobis records with
    | .error e => .error e
    | .ok x => .ok (qmul x percentage)
  else if cond ≤ 6 then
    adaptExtremumToAddCond areCoops areCobis
      ((records.filter (condPred cond valences)).map (·.icohpSummed)) percentage
  else .error .badConfig

/-- `_get_limit_from_extremum`: turn the extremum-based value into the
acceptance window, clamping with the noise cutoff when one is given:
`(-inf, min(eb, -noise))` for ICOHPs and `(max(eb, noise), +inf)` for
ICOOPs/ICOBIs. -/
def getLimitFromExtremum (records : List IcohpRecord) (valences : List ℚ)
    (percentage : ℚ) (adapt : Bool) (cond : ℕ) (areCoops areCobis : Bool)
    (noiseCutoff : Option ℚ) : Except LobsterError (XR × XR) :=
  match extremumBased records valences percentage adapt cond areCoops areCobis with
  | .error e => .error e
  | .ok eb =>
    if !areCoops && !areCobis then
      .ok (.negInf, .fin (match noiseCutoff with
                          | some c => min eb (qneg c)
                          | none => eb))
    else
      .ok (.fin (match noiseCutoff with
                 | some c => max eb c
                 | none => eb), .posInf)

/-- `_evaluate_ce`: compute the limits from the extremum when none are
given (exactly one given limit is a configuration error), then resolve
all environments. -/
def evaluateCe (lat : CrystalLattice) (sites : List SiteModel)
    (records : List IcohpRecord) (valences : List ℚ)
    (lowerlimit upperlimit : Option ℚ) (onlyBondsTo : Option (List String))
    (cond : ℕ) (percentage : ℚ) (adapt areCoops areCobis : Bool)
    (noiseCutoff : Option ℚ) : Except LobsterError (List SiteEnv) :=
  match lowerlimit, upperlimit with
  | none, none =>
    match getLimitFromExtremum records valences percentage adapt cond
        areCoops areCobis noiseCutoff with
    | .error e => .error e
    | .ok lims =>
      .ok (findEnvironments lat sites records valences cond lims.1 lims.2 onlyBondsTo)
  | some lo, some hi =>
    .ok (findEnvironments lat sites records valences cond (.fin lo) (.fin hi) onlyBondsTo)
  | _, _ => .error .badConfig

/-- The setup part of `LobsterNeighbors.__init__` relevant here, in
source order: validate the additional condition, reject an all-zero (or
absent) valence list under the sign-discriminating conditions 1, 3, 5
and 6, unpack the explicit limits, and run the evaluation pass.
`valences = none` stands for `self.valences or []` being empty. -/
def lobsterNeighborsSetup (lat : CrystalLattice) (sites : List SiteModel)
    (records : List IcohpRecord) (valences : Option (List ℚ))
    (limits : Option (ℚ × ℚ)) (cond : ℕ) (onlyBondsTo : Option (List String))
    (percentage : ℚ) (noiseCutoff : Option ℚ) (adapt areCoops areCobis : Bool) :
    Except LobsterError (List SiteEnv) :=
  if cond ≥ 7 then .error .badConfig
  else if allcloseZero (valences.getD []) &&
      (cond == 1 || cond == 3 || cond == 5 || cond == 6) then
    .error .missingValence
  else
    match limits with
    | none =>
      evaluateCe lat sites records (valences.getD []) none none onlyBondsTo cond
        percentage adapt areCoops areCobis noiseCutoff
    | some lh =>
      evaluateCe lat sites records (valences.getD []) (some lh.1) (some lh.2)
        onlyBondsTo cond percentage adapt areCoops areCobis noiseCutoff

/-! Image reconciliation (claim C5). -/

/-- Componentwise banker's rounding of a coordinate triple
(`np.round(diff)`). -/
def roundVec (v : Vec3) : Cell3 :=
  (roundHalfEven v.1, roundHalfEven v.2.1, roundHalfEven v.2.2)

/-- One component of `np.allclose(diff, round_diff)` with the default
tolerances: `|d - round(d)| <= 1e-8 + 1e-5 * |round(d)|`. -/
def closeToRounded (q : ℚ) : Bool :=
  decide (qabs (qsub q ((roundHalfEven q : ℤ) : ℚ)) ≤
    qadd (mkRat 1 100000000) (qmul (mkRat 1 100000) (qabs ((roundHalfEven q : ℤ) : ℚ))))

/-- `np.allclose(diff, round_diff)` over the three components. -/
def allcloseRound (v : Vec3) : Bool :=
  closeToRounded v.1 && closeToRounded v.2.1 && closeToRounded v.2.2

/-- The per-neighbour image computation of
`LobsterLightStructureEnvironments.from_Lobster`: the difference between
the neighbour's fractional coordinates and its in-cell representative's,
guarded by the `np.allclose` near-integer check (`ValueError` — the
InconsistentImage error — when it fails), then rounded to the image
cell. -/
def fromLobsterImageCell (neighFrac repFrac : Vec3) : Except LobsterError Cell3 :=
  let diff := v3sub neighFrac repFrac
  if allcloseRound diff then .ok (roundVec diff) else .error .inconsistentImage

/-- The image computation of the structure-graph assembly in
`_evaluate_ce` (`tuple(int(round(i)) for i in ...)`): the same rounded
difference, with no near-integer guard. -/
def sgListImage (neighFrac repFrac : Vec3) : Cell3 :=
  roundVec (v3sub neighFrac repFrac)

/-! Aggregation (claims C7 and C10). -/

/-- `_determine_unit_cell` on one coordinate:
`math.floor(round(coord, 4))`. -/
def determineUnitCellComp (q : ℚ) : ℤ :=
  Rat.floor (mkRat (roundHalfEven (qmul q 10000)) 10000)

/-- `_determine_unit_cell`: the unit cell a site sits in, from its
fractional coordinates. -/
def determineUnitCell (v : Vec3) : Cell3 :=
  (determineUnitCellComp v.1, determineUnitCellComp v.2.1, determineUnitCellComp v.2.2)

/-- A cached neighbour of a site (an entry of `self.list_neighsite`),
reduced to what `get_info_icohps_between_neighbors` reads from it: its
fractional coordinates and its original in-cell index (the result of the
external `_get_original_site` lookup). -/
structure NeighborEntry where
  frac : Vec3
  origIndex : ℕ
deriving DecidableEq

/-- The result record `ICOHPNeighborsInfo` (a `NamedTuple` in the
source). -/
structure ICOHPNeighborsInfo where
  totalIcohp : ℚ
  listIcohps : List ℚ
  nBonds : ℕ
  labels : List String
  atoms : List (String × String)
  centralIsites : Option (List ℕ)
deriving DecidableEq

/-- Mutable accumulators of the two aggregation loops. -/
structure InfoAcc where
  total : ℚ
  icohpsList : List ℚ
  nBonds : ℕ
  labels : List String
  atoms : List (String × String)
  centralIsites : List ℕ
deriving DecidableEq

/-- The accumulators before the loops start. -/
def emptyInfoAcc : InfoAcc :=
  ⟨0, [], 0, [], [], []⟩

/-- The endpoint pair of the record at 1-based position `label` of the
collection (`self.Icohpcollection._list_atom1[int(keys) - 1]` and the
matching `_list_atom2` lookup). -/
def atomPairOfLabel (records : List IcohpRecord) (label : String) : String × String :=
  let r := records.getD (digitsVal label.data - 1) defaultRecord
  (r.atom1, r.atom2)

/-- One accumulation step of `get_info_icohps_to_neighbors`: add the
strength to the running total and append to every parallel list. -/
def addBondAt (records : List IcohpRecord) (acc : InfoAcc) (label : String)
    (icohpVal : ℚ) (isite : ℕ) : InfoAcc :=
  { total := qadd acc.total icohpVal
    icohpsList := acc.icohpsList ++ [icohpVal]
    nBonds := acc.nBonds + 1
    labels := acc.labels ++ [label]
    atoms := acc.atoms ++ [atomPairOfLabel records label]
    centralIsites := acc.centralIsites ++ [isite] }

/-- One accumulation step of `get_info_icohps_between_neighbors` (no
originating-site list there). -/
def addBond (records : List IcohpRecord) (acc : InfoAcc) (label : String)
    (icohpVal : ℚ) : InfoAcc :=
  { acc with
    total := qadd acc.total icohpVal
    icohpsList := acc.icohpsList ++ [icohpVal]
    nBonds := acc.nBonds + 1
    labels := acc.labels ++ [label]
    atoms := acc.atoms ++ [atomPairOfLabel records label] }

/-- The shared site-selection prologue of both aggregation queries:
requesting cation-only sites without valences is the MissingValence
error; with no explicit site list, cation-only keeps the sites of
valence at least 0, otherwise all sites are used. -/
def resolveIsites (structLen : ℕ) (valences : Option (List ℚ))
    (isitesArg : Option (List ℕ)) (onlycationIsites : Bool) :
    Except LobsterError (List ℕ) :=
  if valences.isNone && onlycationIsites then .error .missingValence
  else
    match isitesArg with
    | some l => .ok l
    | none =>
      if onlycationIsites then
        .ok ((List.range structLen).filter fun i =>
          decide (0 ≤ (valences.getD []).getD i 0))
      else .ok (List.range structLen)

/-- `get_info_icohps_to_neighbors`: walk the cached per-site key and
strength lists of the selected sites, accumulating in lockstep. -/
def getInfoIcohpsToNeighbors (records : List IcohpRecord)
    (listKeys : List (List String)) (listIcohpsC : List (List ℚ))
    (structLen : ℕ) (valences : Option (List ℚ)) (isitesArg : Option (List ℕ))
    (onlycationIsites : Bool) : Except LobsterError ICOHPNeighborsInfo :=
  match resolveIsites structLen valences isitesArg onlycationIsites with
  | .error e => .error e
  | .ok isites =>
    let acc := (List.range structLen).foldl
      (fun acc ival =>
        if ival ∈ isites then
          ((listKeys.getD ival []).zip (listIcohpsC.getD ival [])).foldl
            (fun acc ki => addBondAt records acc ki.1 ki.2 ival) acc
        else acc)
      emptyInfoAcc
    .ok ⟨acc.total, acc.icohpsList, acc.nBonds, acc.labels, acc.atoms,
         some acc.centralIsites⟩

/-- The inner record loop of `get_info_icohps_between_neighbors`, with
its `done` flag: a record between distinct atom indices is counted when
its stored translation equals the computed one; between equal atom
indices the translation may also match up to sign, and only the first
such record is counted. -/
def pairScan (records : List IcohpRecord) (i1 i2 : ℕ) (translation : Cell3) :
    List IcohpRecord → Bool → InfoAcc → InfoAcc
  | [], _, acc => acc
  | r :: rs, done, acc =>
    let a1 := atomIndexOf r.atom1
    let a2 := atomIndexOf r.atom2
    if (i1 = a1 ∧ i2 = a2) ∨ (i1 = a2 ∧ i2 = a1) then
      if a1 ≠ a2 then
        if translation = r.translation then
          pairScan records i1 i2 translation rs done
            (addBond records acc r.label r.icohpSummed)
        else pairScan records i1 i2 translation rs done acc
      else if done = false then
        if translation = r.translation ∨ translation = negCell r.translation then
          pairScan records i1 i2 translation rs true
            (addBond records acc r.label r.icohpSummed)
        else pairScan records i1 i2 translation rs done acc
      else pairScan records i1 i2 translation rs done acc
    else pairScan records i1 i2 translation rs done acc

/-- The positional double loop over a site's cached neighbours
(`in_site < in_site2`), computing the two unit-cell offsets and the
relative translation, then scanning the records touching the lower
site. -/
def betweenSitePairs (records : List IcohpRecord) (lower upper : XR)
    (onlyBondsTo : Option (List String)) (neigh : List NeighborEntry)
    (acc0 : InfoAcc) : InfoAcc :=
  (List.range neigh.length).foldl
    (fun accI inSite =>
      (List.range neigh.length).foldl
        (fun accJ inSite2 =>
          if inSite < inSite2 then
            let n1 := neigh.getD inSite ⟨(0, 0, 0), 0⟩
            let n2 := neigh.getD inSite2 ⟨(0, 0, 0), 0⟩
            let u1 := determineUnitCell n1.frac
            let u2 := determineUnitCell n2.frac
            let i1 := n1.origIndex
            let i2 := n2.origIndex
            let translation :=
              if i1 < i2 then subCell u1 u2
              else if i2 < i1 then subCell u2 u1
              else subCell u1 u2
            pairScan records i1 i2 translation
              (getIcohps records i1 lower upper onlyBondsTo) false accJ
          else accJ)
        accI)
    acc0

/-- `get_info_icohps_between_neighbors`: aggregate the interactions
between neighbours of each selected site. -/
def getInfoIcohpsBetweenNeighbors (records : List IcohpRecord)
    (listNeighsite : List (List NeighborEntry)) (structLen : ℕ)
    (valences : Option (List ℚ)) (isitesArg : Option (List ℕ))
    (onlycationIsites : Bool) (lower upper : XR)
    (onlyBondsTo : Option (List String)) :
    Except LobsterError ICOHPNeighborsInfo :=
  match resolveIsites structLen valences isitesArg onlycationIsites with
  | .error e => .error e
  | .ok isites =>
    let acc := isites.foldl
      (fun acc isite =>
        betweenSitePairs records lower upper onlyBondsTo
          (listNeighsite.getD isite []) acc)
      emptyInfoAcc
    .ok ⟨acc.total, acc.icohpsList, acc.nBonds, acc.labels, acc.atoms, none⟩

/-- The cation-only restriction of
`get_light_structure_environment(only_cation_environments=True)`: per
site, keep the cached neighbour data when the valence is at least 0,
empty it otherwise. -/
def onlyCationLists (valences : List ℚ)
    (listNeighsite : List (List NeighborEntry))
    (listNeighisite : List (List ℕ)) :
    List (List NeighborEntry) × List (List ℕ) :=
  (valences.enum.map fun p => if 0 ≤ p.2 then listNeighsite.getD p.1 [] else [],
   valences.enum.map fun p => if 0 ≤ p.2 then listNeighisite.getD p.1 [] else [])

/-! Helper lemmas about the aggregation accumulators. -/

/-- The lockstep invariant of both aggregation loops. -/
def accInv (acc : InfoAcc) : Prop :=
  acc.total = acc.icohpsList.sum ∧ acc.nBonds = acc.icohpsList.length

/-! Concrete scenario inputs for the resolver claims. -/

/-- C1 scenario bond record: label "1", atoms "Na1"/"Cl2", length 3.00,
strength -1. -/
def c1Record : IcohpRecord :=
  ⟨"Na1", "Cl2", 3, mkRat (-1) 1, "1", (0, 0, 0)⟩

/-- Identity-like lattice for the concrete scenarios. -/
def c1Lat : CrystalLattice :=
  ⟨(1, 0, 0), (0, 1, 0), (0, 0, 1)⟩

/-- Geometric image of site 1 at distance 3.00015 (inside tolerance). -/
def c1GeoClose : GeoResult :=
  ⟨(0, 0, 0), mkRat 300015 100000, 1, (0, 0, 0)⟩

/-- Geometric image of site 1 at distance 3.01 (outside tolerance). -/
def c1GeoFar : GeoResult :=
  ⟨(0, 0, 0), mkRat 301 100, 1, (0, 0, 0)⟩

/-- Site whose neighbour search finds only the 3.00015 image. -/
def c1SiteClose : SiteModel :=
  ⟨fun _ => [c1GeoClose]⟩

/-- Site whose neighbour search finds only the 3.01 image. -/
def c1SiteFar : SiteModel :=
  ⟨fun _ => [c1GeoFar]⟩

/-! C2: NeighborSet cardinality and matching. -/

/-- C2 counterexample record (same shape as the C1 scenario). -/
def c2Record : IcohpRecord :=
  ⟨"Na1", "Cl2", 3, mkRat (-1) 1, "1", (0, 0, 0)⟩

/-- C2 lattice. -/
def c2Lat : CrystalLattice :=
  ⟨(1, 0, 0), (0, 1, 0), (0, 0, 1)⟩

/-- C2 site whose only image (distance 3.01) misses the candidate. -/
def c2SiteFar : SiteModel :=
  ⟨fun _ => [⟨(0, 0, 0), mkRat 301 100, 1, (0, 0, 0)⟩]⟩

/-- C2 site with a matching image at distance 3.0002. -/
def c2SiteClose : SiteModel :=
  ⟨fun _ => [⟨(0, 0, 0), mkRat 30002 10000, 1, (0, 0, 0)⟩]⟩

/-- Record for the C3 witness (strength -2). -/
def c3Record : IcohpRecord :=
  ⟨"Na1", "Cl2", 1, mkRat (-2) 1, "1", (0, 0, 0)⟩

/-! C4: condition policy 5. -/

/-- Record for the C4 counterexample. -/
def c4Record : IcohpRecord :=
  ⟨"Na1", "Cl2", mkRat 28 10, mkRat (-1) 1, "1", (0, 0, 0)⟩

/-- Record for the C8 witness: a same-element bond, so that condition 2
(no same-element bonds) selects nothing. -/
def c8Record : IcohpRecord :=
  ⟨"Na1", "Na2", 1, mkRat (-1) 1, "1", (0, 0, 0)⟩


theorem qadd_eq (a b : ℚ) : qadd a b = a + b := by
  unfold qadd
  rw [Rat.mkRat_eq_div]
  push_cast
  rw [eq_comm]
  conv_lhs => rw [← Rat.num_div_den a, ← Rat.num_div_den b]
  have ha : ((a.den : ℚ)) ≠ 0 := by positivity
  have hb : ((b.den : ℚ)) ≠ 0 := by positivity
  field_simp

theorem qsub_eq (a b : ℚ) : qsub a b = a - b := by
  unfold qsub
  rw [Rat.mkRat_eq_div]
  push_cast
  rw [eq_comm]
  conv_lhs => rw [← Rat.num_div_den a, ← Rat.num_div_den b]
  have ha : ((a.den : ℚ)) ≠ 0 := by positivity
  have hb : ((b.den : ℚ)) ≠ 0 := by positivity
  field_simp
  ring

theorem qmul_eq (a b : ℚ) : qmul a b = a * b := by
  unfold qmul
  rw [Rat.mkRat_eq_div]
  push_cast
  rw [eq_comm]
  conv_lhs => rw [← Rat.num_div_den a, ← Rat.num_div_den b]
  have ha : ((a.den : ℚ)) ≠ 0 := by positivity
  have hb : ((b.den : ℚ)) ≠ 0 := by positivity
  field_simp

theorem qneg_eq (a : ℚ) : qneg a = -a := by
  unfold qneg
  rw [Rat.mkRat_eq_div]
  push_cast
  rw [neg_div, Rat.num_div_den]

theorem qabs_eq_abs (q : ℚ) : qabs q = |q| := by
  unfold qabs
  rcases lt_or_le q 0 with h | h
  · rw [if_pos h, qneg_eq, abs_of_neg h]
  · rw [if_neg (not_lt.mpr h), abs_of_nonneg h]

/-! Helper lemmas about the matching walk. -/

theorem removeFirstMatch_spec (gd : ℚ) (gi : ℕ) :
    ∀ (pool pool' : List (ℚ × ℕ)), removeFirstMatch gd gi pool = some pool' →
      ∃ pre d post, pool = pre ++ (d, gi) :: post ∧ pool' = pre ++ post ∧
        npIscloseDist d gd = true ∧
        ∀ p ∈ pre, ¬(npIscloseDist p.1 gd = true ∧ p.2 = gi) := by
  intro pool
  induction pool with
  | nil => intro pool' h; simp [removeFirstMatch] at h
  | cons p rest ih =>
    intro pool' h
    rw [removeFirstMatch] at h
    by_cases hc : (npIscloseDist p.1 gd && decide (p.2 = gi)) = true
    · rw [if_pos hc] at h
      have hc2 := hc
      simp only [Bool.and_eq_true, decide_eq_true_eq] at hc2
      obtain ⟨hclose, heq2⟩ := hc2
      refine ⟨[], p.1, rest, ?_, ?_, hclose, by simp⟩
      · simp [← heq2]
      · simpa using (Option.some.inj h).symm
    · rw [if_neg hc] at h
      cases hr : removeFirstMatch gd gi rest with
      | none => rw [hr] at h; simp at h
      | some rest2 =>
        rw [hr] at h
        obtain ⟨pre, d, post, h1, h2, h3, h4⟩ := ih rest2 hr
        have hpool2 : pool' = p :: rest2 := (Option.some.inj h).symm
        refine ⟨p :: pre, d, post, ?_, ?_, h3, ?_⟩
        · rw [h1]; rfl
        · rw [hpool2, h2]; rfl
        · intro p2 hp2
          rcases List.mem_cons.mp hp2 with hpa | hpb
          · subst hpa
            intro hcontra
            obtain ⟨hcl, hix⟩ := hcontra
            apply hc
            rw [Bool.and_eq_true]
            exact ⟨hcl, decide_eq_true hix⟩
          · exact h4 p2 hpb

theorem resolveWalk_mem :
    ∀ (geo : List GeoResult) (pool : List (ℚ × ℕ)) (g : GeoResult),
      g ∈ resolveWalk geo pool →
      ∃ d, (d, g.index) ∈ pool ∧ npIscloseDist d g.dist = true := by
  intro geo
  induction geo with
  | nil => intro pool g h; simp [resolveWalk] at h
  | cons g0 gs ih =>
    intro pool g h
    rw [resolveWalk] at h
    cases hr : removeFirstMatch g0.dist g0.index pool with
    | none => rw [hr] at h; exact ih pool g h
    | some pool2 =>
      rw [hr] at h
      obtain ⟨pre, d, post, h1, h2, h3, _⟩ := removeFirstMatch_spec _ _ _ _ hr
      rcases List.mem_cons.mp h with hg | hg
      · subst hg
        exact ⟨d, by rw [h1]; exact List.mem_append_right _ (List.mem_cons_self _ _), h3⟩
      · obtain ⟨d2, hmem, hcl⟩ := ih pool2 g hg
        refine ⟨d2, ?_, hcl⟩
        rw [h1]
        rw [h2] at hmem
        rcases List.mem_append.mp hmem with hm | hm
        · exact List.mem_append_left _ hm
        · exact List.mem_append_right _ (List.mem_cons_of_mem _ hm)

theorem resolveWalk_length_le :
    ∀ (geo : List GeoResult) (pool : List (ℚ × ℕ)),
      (resolveWalk geo pool).length ≤ pool.length := by
  intro geo
  induction geo with
  | nil => intro pool; simp [resolveWalk]
  | cons g0 gs ih =>
    intro pool
    rw [resolveWalk]
    cases hr : removeFirstMatch g0.dist g0.index pool with
    | none => exact ih pool
    | some pool2 =>
      obtain ⟨pre, d, post, h1, h2, _, _⟩ := removeFirstMatch_spec _ _ _ _ hr
      have hlen : pool.length = pool2.length + 1 := by
        rw [h1, h2]
        simp [List.length_append]
        omega
      simp only [List.length_cons]
      rw [hlen]
      exact Nat.succ_le_succ (ih pool2)

/-! Helper lemmas about the stable sort. -/

theorem filter_orderedInsert (c : ℚ) (a : GeoResult) :
    ∀ l : List GeoResult,
      (List.orderedInsert geoLe a l).filter (fun g => decide (g.dist = c)) =
        if a.dist = c then a :: l.filter (fun g => decide (g.dist = c))
        else l.filter (fun g => decide (g.dist = c)) := by
  intro l
  induction l with
  | nil =>
    by_cases hac : a.dist = c
    · simp [List.orderedInsert, List.filter, hac]
    · simp [List.orderedInsert, List.filter, hac]
  | cons b bs ih =>
    simp only [List.orderedInsert]
    by_cases hab : geoLe a b
    · rw [if_pos hab]
      by_cases hac : a.dist = c
      · simp [List.filter_cons, hac]
      · simp [List.filter_cons, hac]
    · rw [if_neg hab]
      have hblt : b.dist < a.dist := not_le.mp hab
      by_cases hac : a.dist = c
      · have hbc : ¬b.dist = c := by rw [← hac]; exact ne_of_lt hblt
        simp [List.filter_cons, hbc, ih, hac]
      · simp [List.filter_cons, ih, hac]

theorem filter_sortGeo (c : ℚ) :
    ∀ l : List GeoResult,
      (sortGeo l).filter (fun g => decide (g.dist = c)) =
        l.filter (fun g => decide (g.dist = c)) := by
  intro l
  induction l with
  | nil => rfl
  | cons a l ih =>
    have hstep : sortGeo (a :: l) = List.orderedInsert geoLe a (sortGeo l) := rfl
    rw [hstep, filter_orderedInsert]
    by_cases hac : a.dist = c
    · rw [if_pos hac, ih]
      simp [List.filter_cons, hac]
    · rw [if_neg hac, ih]
      simp [List.filter_cons, hac]

/-! Helper lemma about the condition filter. -/

theorem findRelevantAtoms_lengths (isite cond : ℕ) (valences : List ℚ) :
    ∀ rs : List IcohpRecord,
      (findRelevantAtoms isite cond valences rs).2.1.length =
          (findRelevantAtoms isite cond valences rs).1.length ∧
        (findRelevantAtoms isite cond valences rs).2.2.1.length =
          (findRelevantAtoms isite cond valences rs).1.length ∧
        (findRelevantAtoms isite cond valences rs).2.2.2.length =
          (findRelevantAtoms isite cond valences rs).1.length := by
  intro rs
  induction rs with
  | nil => simp [findRelevantAtoms]
  | cons r rs ih =>
    rw [findRelevantAtoms]
    by_cases h1 : condPred cond valences r
    · rw [if_pos h1]
      by_cases h2 : atomIndexOf r.atom1 = isite
      · rw [if_pos h2]
        simpa using ih
      · rw [if_neg h2]
        by_cases h3 : atomIndexOf r.atom2 = isite
        · rw [if_pos h3]
          simpa using ih
        · rw [if_neg h3]
          exact ih
    · rw [if_neg h1]
      exact ih

theorem accInv_empty : accInv emptyInfoAcc := by
  constructor <;> rfl

theorem accInv_addBond (records : List IcohpRecord) (acc : InfoAcc)
    (label : String) (v : ℚ) (h : accInv acc) :
    accInv (addBond records acc label v) := by
  obtain ⟨h1, h2⟩ := h
  constructor
  · simp [addBond, qadd_eq, h1, List.sum_append]
  · simp [addBond, h2]

theorem accInv_addBondAt (records : List IcohpRecord) (acc : InfoAcc)
    (label : String) (v : ℚ) (isite : ℕ) (h : accInv acc) :
    accInv (addBondAt records acc label v isite) := by
  obtain ⟨h1, h2⟩ := h
  constructor
  · simp [addBondAt, qadd_eq, h1, List.sum_append]
  · simp [addBondAt, h2]

theorem accInv_foldl {β : Type} (f : InfoAcc → β → InfoAcc)
    (hf : ∀ acc b, accInv acc → accInv (f acc b)) :
    ∀ (l : List β) (acc : InfoAcc), accInv acc → accInv (List.foldl f acc l) := by
  intro l
  induction l with
  | nil => intro acc h; exact h
  | cons b bs ih => intro acc h; exact ih _ (hf acc b h)

theorem accInv_pairScan (records : List IcohpRecord) (i1 i2 : ℕ) (t : Cell3) :
    ∀ (rs : List IcohpRecord) (done : Bool) (acc : InfoAcc),
      accInv acc → accInv (pairScan records i1 i2 t rs done acc) := by
  intro rs
  induction rs with
  | nil => intro done acc h; rw [pairScan]; exact h
  | cons r rs ih =>
    intro done acc h
    rw [pairScan]
    split_ifs with hA hB hC hD hE
    · exact ih _ _ (accInv_addBond _ _ _ _ h)
    · exact ih _ _ h
    · exact ih _ _ (accInv_addBond _ _ _ _ h)
    · exact ih _ _ h
    · exact ih _ _ h
    · exact ih _ _ h

theorem accInv_betweenSitePairs (records : List IcohpRecord) (lower upper : XR)
    (onlyBondsTo : Option (List String)) (neigh : List NeighborEntry)
    (acc : InfoAcc) (h : accInv acc) :
    accInv (betweenSitePairs records lower upper onlyBondsTo neigh acc) := by
  unfold betweenSitePairs
  refine accInv_foldl _ ?_ _ _ h
  intro acc1 i h1
  refine accInv_foldl _ ?_ _ _ h1
  intro acc2 j h2
  split_ifs with hij
  · exact accInv_pairScan _ _ _ _ _ _ _ h2
  · exact h2

/-- C1: the resolver walks the search results in ascending-distance
order and binds each to the first not-yet-matched candidate whose
neighbour index equals the result's originating index and whose length
is within `np.isclose(…, rtol=1e-4)` of the result's distance, removing
it from the pool (first two conjuncts); concretely, a candidate of
length 3.00 matches an image at distance 3.00015 but not one at
distance 3.01, whose candidate is silently dropped (last three
conjuncts). -/
theorem lobster_c1_resolver_matching :
    (∀ (gd : ℚ) (gi : ℕ) (pool pool' : List (ℚ × ℕ)),
        removeFirstMatch gd gi pool = some pool' →
        ∃ pre d post, pool = pre ++ (d, gi) :: post ∧ pool' = pre ++ post ∧
          npIscloseDist d gd = true ∧
          ∀ p ∈ pre, ¬(npIscloseDist p.1 gd = true ∧ p.2 = gi)) ∧
    (∀ (geo : List GeoResult) (pool : List (ℚ × ℕ)) (g : GeoResult),
        g ∈ resolveWalk geo pool →
        ∃ d, (d, g.index) ∈ pool ∧ npIscloseDist d g.dist = true) ∧
    (findEnvSite [c1Record] [] 0 .negInf .posInf none c1Lat 0 c1SiteClose).neighisite = [1] ∧
    (findEnvSite [c1Record] [] 0 .negInf .posInf none c1Lat 0 c1SiteFar).neighisite = [] ∧
    (findEnvSite [c1Record] [] 0 .negInf .posInf none c1Lat 0 c1SiteFar).keys = ["1"] := by
  refine ⟨removeFirstMatch_spec, resolveWalk_mem, ?_, ?_, ?_⟩ <;> decide

/-- Witness for C1: the resolver property applied to the concrete pool
`[(3.00, 1)]` and the matched 3.00015 image. -/
theorem lobster_c1_resolver_matching_witness :
    ∃ d, (d, c1GeoClose.index) ∈ [((3 : ℚ), 1)] ∧
      npIscloseDist d c1GeoClose.dist = true :=
  lobster_c1_resolver_matching.2.1 [c1GeoClose] [((3 : ℚ), 1)] c1GeoClose (by decide)

/-- C2 counterexample: one bond record is selected for site 0 by the
filter and threshold, yet the resolved NeighborSet is empty because the
only geometric image lies at 3.01, outside tolerance of the stored
length 3.00 — the claimed length equality fails. -/
theorem lobster_c2_counterexample :
    (findRelevantAtoms 0 0 [] (getIcohps [c2Record] 0 .negInf .posInf none)).1.length = 1 ∧
    (findEnvSite [c2Record] [] 0 .negInf .posInf none c2Lat 0 c2SiteFar).neighisite.length = 0 := by
  decide

/-- C2 amended: the resolved NeighborSet has at most as many entries as
there are selected bond records (equality can fail when a candidate
finds no geometric match and is silently dropped); its three per-entry
lists have equal length; and every resolved entry is bound to a selected
candidate with the same neighbour index whose stored length is within
`np.isclose(…, rtol=1e-4)` of the entry's geometric distance. -/
theorem lobster_c2_amended :
    ∀ (records : List IcohpRecord) (valences : List ℚ) (cond : ℕ)
      (lower upper : XR) (obt : Option (List String)) (lat : CrystalLattice)
      (idx : ℕ) (site : SiteModel),
      (findEnvSite records valences cond lower upper obt lat idx site).neighisite.length ≤
        (findRelevantAtoms idx cond valences (getIcohps records idx lower upper obt)).1.length ∧
      (findEnvSite records valences cond lower upper obt lat idx site).neighisite.length =
        (findEnvSite records valences cond lower upper obt lat idx site).neighsite.length ∧
      (findEnvSite records valences cond lower upper obt lat idx site).neighisite.length =
        (findEnvSite records valences cond lower upper obt lat idx site).coords.length ∧
      ∀ g ∈ (findEnvSite records valences cond lower upper obt lat idx site).neighsite,
        ∃ d, (d, g.index) ∈
            (findRelevantAtoms idx cond valences (getIcohps records idx lower upper obt)).2.1.zip
              (findRelevantAtoms idx cond valences (getIcohps records idx lower upper obt)).2.2.1 ∧
          npIscloseDist d g.dist = true := by
  intro records valences cond lower upper obt lat idx site
  have hlen := findRelevantAtoms_lengths idx cond valences (getIcohps records idx lower upper obt)
  simp only [findEnvSite]
  split_ifs with hemp
  · simp
  · simp only [List.length_map]
    refine ⟨?_, by trivial, by trivial, ?_⟩
    · calc (resolveWalk
            (sortGeo (site.geoSearch (qadd (listMaxQ (findRelevantAtoms idx cond valences
              (getIcohps records idx lower upper obt)).2.1) (mkRat 1 2))))
            ((findRelevantAtoms idx cond valences (getIcohps records idx lower upper obt)).2.1.zip
              (findRelevantAtoms idx cond valences (getIcohps records idx lower upper obt)).2.2.1)).length ≤
          ((findRelevantAtoms idx cond valences (getIcohps records idx lower upper obt)).2.1.zip
            (findRelevantAtoms idx cond valences (getIcohps records idx lower upper obt)).2.2.1).length :=
            resolveWalk_length_le _ _
        _ ≤ (findRelevantAtoms idx cond valences (getIcohps records idx lower upper obt)).1.length := by
            rw [List.length_zip, hlen.1, hlen.2.1]
            exact min_le_left _ _
    · intro g hg
      exact resolveWalk_mem _ _ _ hg

/-- Witness for C2 (amended): in the 3.0002 scenario the single
resolved entry is bound to the candidate `(3.00, 1)` within tolerance. -/
theorem lobster_c2_amended_witness :
    ∃ d, (d, (1 : ℕ)) ∈
        (findRelevantAtoms 0 0 [] (getIcohps [c2Record] 0 .negInf .posInf none)).2.1.zip
          (findRelevantAtoms 0 0 [] (getIcohps [c2Record] 0 .negInf .posInf none)).2.2.1 ∧
      npIscloseDist d (mkRat 30002 10000) = true := by
  have h := (lobster_c2_amended [c2Record] [] 0 .negInf .posInf none c2Lat 0 c2SiteClose).2.2.2
    ⟨(0, 0, 0), mkRat 30002 10000, 1, (0, 0, 0)⟩ (by decide)
  exact h

/-- C9: neighbour resolution is deterministic — the evaluation is a pure
function of its inputs — and the walk order is the stable
ascending-distance sort of the search results: sorted output, a
permutation of the input, with each equal-distance class kept in its
original order. -/
theorem lobster_c9_determinism :
    (∀ (lat : CrystalLattice) (sites : List SiteModel) (records : List IcohpRecord)
        (valences : List ℚ) (cond : ℕ) (lower upper : XR) (obt : Option (List String)),
        findEnvironments lat sites records valences cond lower upper obt =
          findEnvironments lat sites records valences cond lower upper obt) ∧
    (∀ l : List GeoResult, List.Sorted geoLe (sortGeo l)) ∧
    (∀ l : List GeoResult, (sortGeo l).Perm l) ∧
    (∀ (l : List GeoResult) (c : ℚ),
        (sortGeo l).filter (fun g => decide (g.dist = c)) =
          l.filter (fun g => decide (g.dist = c))) := by
  refine ⟨fun _ _ _ _ _ _ _ _ => rfl, ?_, ?_, fun l c => filter_sortGeo c l⟩
  · intro l
    exact List.sorted_insertionSort geoLe l
  · intro l
    exact List.perm_insertionSort geoLe l

/-! C3: the threshold window. -/

/-- C3: with no explicit limits, the bonding case (not COOP, not COBI)
yields the window `(-inf, min(extremum*percentage, -noise_cutoff))` and
the non-bonding case `(max(extremum*percentage, noise_cutoff), +inf)`;
without a noise cutoff the clamp is skipped; with one, the bonding upper
bound is at most `-noise_cutoff` and the non-bonding lower bound at
least `noise_cutoff`. -/
theorem lobster_c3_threshold_window :
    ∀ (records : List IcohpRecord) (valences : List ℚ) (percentage : ℚ)
      (adapt : Bool) (cond : ℕ) (nc : Option ℚ) (eb : ℚ) (areCoops areCobis : Bool),
      extremumBased records valences percentage adapt cond areCoops areCobis = .ok eb →
      ((areCoops = false ∧ areCobis = false) →
        getLimitFromExtremum records valences percentage adapt cond areCoops areCobis nc =
          .ok (.negInf, .fin (match nc with | some c => min eb (-c) | none => eb)) ∧
        ∀ c, nc = some c →
          (match nc with | some c2 => min eb (-c2) | none => eb) ≤ -c) ∧
      ((areCoops = true ∨ areCobis = true) →
        getLimitFromExtremum records valences percentage adapt cond areCoops areCobis nc =
          .ok (.fin (match nc with | some c => max eb c | none => eb), .posInf) ∧
        ∀ c, nc = some c →
          c ≤ (match nc with | some c2 => max eb c2 | none => eb)) := by
  intro records valences percentage adapt cond nc eb areCoops areCobis heb
  constructor
  · rintro ⟨h1, h2⟩
    subst h1
    subst h2
    refine ⟨?_, ?_⟩
    · rw [getLimitFromExtremum, heb]
      cases nc with
      | none => rfl
      | some c => simp [qneg_eq]
    · intro c hc
      subst hc
      exact min_le_right eb (-c)
  · intro hdisj
    have hcomb : (!areCoops && !areCobis) = false := by
      rcases hdisj with h | h <;> subst h <;> simp
    refine ⟨?_, ?_⟩
    · rw [getLimitFromExtremum, heb, hcomb]
      simp
    · intro c hc
      subst hc
      exact le_max_right eb c

/-- Witness for C3: extremum -2 at 50 percent gives -1; with noise
cutoff 0.1 the bonding window is `(-inf, min(-1, -0.1)) = (-inf, -1)`. -/
theorem lobster_c3_threshold_window_witness :
    getLimitFromExtremum [c3Record] [] (mkRat 1 2) false 0 false false (some (mkRat 1 10)) =
      .ok (.negInf, .fin (match some (mkRat 1 10) with
                          | some c => min (mkRat (-1) 1) (-c)
                          | none => mkRat (-1) 1)) :=
  ((lobster_c3_threshold_window [c3Record] [] (mkRat 1 2) false 0
    (some (mkRat 1 10)) (mkRat (-1) 1) false false (by decide)).1 ⟨rfl, rfl⟩).1

/-- C4 counterexample: with valences `[0, 1]` the endpoint "Na1" has
valence exactly 0 and "Cl2" valence 1 ≥ 0, the record touches site 0,
yet condition 5 selects nothing — the claimed "both ≥ 0" predicate (and
its zero-valence particular case) fails on the code, which requires
strictly positive (or strictly negative) valences on both endpoints. -/
theorem lobster_c4_counterexample :
    valOf [0, 1] ("Na1") = 0 ∧ (0 : ℚ) ≤ valOf [0, 1] ("Cl2") ∧
    atomIndexOf ("Na1") = 0 ∧
    findRelevantAtoms 0 5 [0, 1] [c4Record] = ([], [], [], []) := by
  decide

/-- C4 amended: under condition 5 a candidate record is selected for a
site exactly when it touches the site and the two endpoint valences are
both strictly positive or both strictly negative; a record with a
zero-valence endpoint is never selected. -/
theorem lobster_c4_amended :
    ∀ (isite : ℕ) (valences : List ℚ) (rs : List IcohpRecord),
      (findRelevantAtoms isite 5 valences rs).1 =
        (rs.filter fun r =>
          decide ((atomIndexOf r.atom1 = isite ∨ atomIndexOf r.atom2 = isite) ∧
            ((0 < valOf valences r.atom1 ∧ 0 < valOf valences r.atom2) ∨
             (valOf valences r.atom1 < 0 ∧ valOf valences r.atom2 < 0)))).map
          (fun r => r.label) := by
  intro isite valences rs
  induction rs with
  | nil => rfl
  | cons r rs ih =>
    rw [findRelevantAtoms, List.filter_cons]
    by_cases hsign : (0 < valOf valences r.atom1 ∧ 0 < valOf valences r.atom2) ∨
        (valOf valences r.atom1 < 0 ∧ valOf valences r.atom2 < 0)
    · have hp : condPred 5 valences r = true := by
        simp only [condPred, Bool.or_eq_true, Bool.and_eq_true, decide_eq_true_eq]
        exact hsign
      rw [if_pos hp]
      by_cases h1 : atomIndexOf r.atom1 = isite
      · have hfp : decide ((atomIndexOf r.atom1 = isite ∨ atomIndexOf r.atom2 = isite) ∧
            ((0 < valOf valences r.atom1 ∧ 0 < valOf valences r.atom2) ∨
             (valOf valences r.atom1 < 0 ∧ valOf valences r.atom2 < 0))) = true :=
          decide_eq_true ⟨Or.inl h1, hsign⟩
        rw [if_pos h1, if_pos hfp, List.map_cons]
        exact congrArg (r.label :: ·) ih
      · rw [if_neg h1]
        by_cases h2 : atomIndexOf r.atom2 = isite
        · have hfp : decide ((atomIndexOf r.atom1 = isite ∨ atomIndexOf r.atom2 = isite) ∧
              ((0 < valOf valences r.atom1 ∧ 0 < valOf valences r.atom2) ∨
               (valOf valences r.atom1 < 0 ∧ valOf valences r.atom2 < 0))) = true :=
            decide_eq_true ⟨Or.inr h2, hsign⟩
          rw [if_pos h2, if_pos hfp, List.map_cons]
          exact congrArg (r.label :: ·) ih
        · have hfp : decide ((atomIndexOf r.atom1 = isite ∨ atomIndexOf r.atom2 = isite) ∧
              ((0 < valOf valences r.atom1 ∧ 0 < valOf valences r.atom2) ∨
               (valOf valences r.atom1 < 0 ∧ valOf valences r.atom2 < 0))) = false :=
            decide_eq_false (by rintro ⟨h | h, _⟩ <;> [exact h1 h; exact h2 h])
          rw [if_neg h2, if_neg (by simp [hfp])]
          exact ih
    · have hp : condPred 5 valences r = false := by
        simp only [condPred, Bool.or_eq_true, Bool.and_eq_true, decide_eq_true_eq]
        simpa using hsign
      have hfp : decide ((atomIndexOf r.atom1 = isite ∨ atomIndexOf r.atom2 = isite) ∧
          ((0 < valOf valences r.atom1 ∧ 0 < valOf valences r.atom2) ∨
           (valOf valences r.atom1 < 0 ∧ valOf valences r.atom2 < 0))) = false :=
        decide_eq_false (by rintro ⟨_, hs⟩; exact hsign hs)
      rw [if_neg (by simp [hp]), if_neg (by simp [hfp])]
      exact ih

/-! C5: image reconciliation tolerance. -/

/-- C5 counterexample: a neighbour whose fractional-coordinate
difference deviates from the integer vector `(0,0,0)` by only
5·10⁻⁷ ≤ 10⁻⁶ — within the claimed tolerance — nevertheless raises the
hard InconsistentImage error, because the code's check is
`np.allclose` with absolute tolerance 1e-8, not 1e-6. -/
theorem lobster_c5_counterexample :
    fromLobsterImageCell (mkRat 1 2000000, 0, 0) (0, 0, 0) = .error .inconsistentImage ∧
    roundVec (v3sub (mkRat 1 2000000, 0, 0) (0, 0, 0)) = (0, 0, 0) ∧
    qabs (v3sub (mkRat 1 2000000, 0, 0) (0, 0, 0)).1 ≤ mkRat 1 1000000 := by
  decide

/-- C5 amended: the image is the componentwise half-even-rounded
difference of fractional coordinates; in `from_Lobster` the near-integer
guard is `np.allclose` with its default tolerances — per component
`|d - round(d)| <= 1e-8 + 1e-5 * |round(d)|` (not 1e-6) — raising the
hard error exactly when it fails; the structure-graph image in
`_evaluate_ce` rounds with no guard at all. -/
theorem lobster_c5_amended :
    (∀ q : ℚ, closeToRounded q = true ↔
        |q - ((roundHalfEven q : ℤ) : ℚ)| ≤
          1 / 100000000 + (1 / 100000) * |((roundHalfEven q : ℤ) : ℚ)|) ∧
    (∀ nf rf : Vec3, allcloseRound (v3sub nf rf) = true →
        fromLobsterImageCell nf rf = .ok (roundVec (v3sub nf rf))) ∧
    (∀ nf rf : Vec3, allcloseRound (v3sub nf rf) = false →
        fromLobsterImageCell nf rf = .error .inconsistentImage) ∧
    (∀ nf rf : Vec3, sgListImage nf rf = roundVec (v3sub nf rf)) := by
  refine ⟨?_, ?_, ?_, fun _ _ => rfl⟩
  · intro q
    rw [closeToRounded, decide_eq_true_eq, qabs_eq_abs, qsub_eq, qadd_eq, qmul_eq,
      qabs_eq_abs, Rat.mkRat_eq_div, Rat.mkRat_eq_div]
    push_cast
    exact Iff.rfl
  · intro nf rf h
    rw [fromLobsterImageCell]
    rw [if_pos h]
  · intro nf rf h
    rw [fromLobsterImageCell]
    rw [if_neg (by simp [h])]

/-- Witness for C5 (amended): a difference of exactly 1 passes the
guard and rounds to the image cell `(1, 0, 0)`. -/
theorem lobster_c5_amended_witness :
    fromLobsterImageCell ((1 : ℚ), 0, 0) (0, 0, 0) =
      .ok (roundVec (v3sub ((1 : ℚ), 0, 0) (0, 0, 0))) :=
  lobster_c5_amended.2.1 ((1 : ℚ), 0, 0) (0, 0, 0) (by decide)

/-! C6: all-zero valences under a sign-discriminating condition. -/

/-- C6: with a condition policy in {1, 3, 5, 6} and all supplied
valences zero, construction fails at setup with the MissingValence
error — the `Except` short-circuits before `_evaluate_ce` runs. -/
theorem lobster_c6_zero_valences :
    ∀ (lat : CrystalLattice) (sites : List SiteModel) (records : List IcohpRecord)
      (vals : List ℚ) (limits : Option (ℚ × ℚ)) (cond : ℕ)
      (obt : Option (List String)) (percentage : ℚ) (noiseCutoff : Option ℚ)
      (adapt areCoops areCobis : Bool),
      (cond = 1 ∨ cond = 3 ∨ cond = 5 ∨ cond = 6) →
      (∀ v ∈ vals, v = (0 : ℚ)) →
      lobsterNeighborsSetup lat sites records (some vals) limits cond obt percentage
          noiseCutoff adapt areCoops areCobis = .error .missingValence := by
  intro lat sites records vals limits cond obt percentage noiseCutoff adapt areCoops
    areCobis hcond hzero
  have hall : allcloseZero vals = true := by
    rw [allcloseZero, List.all_eq_true]
    intro v hv
    rw [hzero v hv]
    decide
  rw [lobsterNeighborsSetup.eq_def]
  rcases hcond with h | h | h | h <;> subst h <;> simp [hall]

/-- Witness for C6: zero valences with the cation–cation condition. -/
theorem lobster_c6_zero_valences_witness :
    lobsterNeighborsSetup ⟨(1, 0, 0), (0, 1, 0), (0, 0, 1)⟩ [] [] (some [0, 0]) none 6
      none 1 none false false false = .error .missingValence :=
  lobster_c6_zero_valences _ _ _ _ _ _ _ _ _ _ _ _ (by simp) (by decide)

/-! C7: aggregation totals. -/

/-- C7: both aggregation queries keep their accumulators in lockstep —
whenever they return a result, the reported total strength is the sum of
the reported per-bond strength list and the reported bond count is its
length. -/
theorem lobster_c7_totals :
    (∀ (records : List IcohpRecord) (listKeys : List (List String))
        (listIcohpsC : List (List ℚ)) (structLen : ℕ) (valences : Option (List ℚ))
        (isitesArg : Option (List ℕ)) (oc : Bool) (info : ICOHPNeighborsInfo),
        getInfoIcohpsToNeighbors records listKeys listIcohpsC structLen valences
            isitesArg oc = .ok info →
        info.totalIcohp = info.listIcohps.sum ∧ info.nBonds = info.listIcohps.length) ∧
    (∀ (records : List IcohpRecord) (listNeighsite : List (List NeighborEntry))
        (structLen : ℕ) (valences : Option (List ℚ)) (isitesArg : Option (List ℕ))
        (oc : Bool) (lower upper : XR) (obt : Option (List String))
        (info : ICOHPNeighborsInfo),
        getInfoIcohpsBetweenNeighbors records listNeighsite structLen valences
            isitesArg oc lower upper obt = .ok info →
        info.totalIcohp = info.listIcohps.sum ∧ info.nBonds = info.listIcohps.length) := by
  constructor
  · intro records listKeys listIcohpsC structLen valences isitesArg oc info h
    rw [getInfoIcohpsToNeighbors] at h
    cases hri : resolveIsites structLen valences isitesArg oc with
    | error e =>
      simp only [hri] at h
      exact Except.noConfusion h
    | ok isites =>
      simp only [hri] at h
      have hacc : accInv ((List.range structLen).foldl
          (fun acc ival =>
            if ival ∈ isites then
              ((listKeys.getD ival []).zip (listIcohpsC.getD ival [])).foldl
                (fun acc ki => addBondAt records acc ki.1 ki.2 ival) acc
            else acc)
          emptyInfoAcc) := by
        refine accInv_foldl _ ?_ _ _ accInv_empty
        intro acc ival hai
        split_ifs with hmem
        · exact accInv_foldl _ (fun acc2 ki h2 => accInv_addBondAt _ _ _ _ _ h2) _ _ hai
        · exact hai
      have hh := Except.ok.inj h
      rw [← hh]
      exact ⟨hacc.1, hacc.2⟩
  · intro records listNeighsite structLen valences isitesArg oc lower upper obt info h
    rw [getInfoIcohpsBetweenNeighbors] at h
    cases hri : resolveIsites structLen valences isitesArg oc with
    | error e =>
      simp only [hri] at h
      exact Except.noConfusion h
    | ok isites =>
      simp only [hri] at h
      have hacc : accInv (isites.foldl
          (fun acc isite =>
            betweenSitePairs records lower upper obt (listNeighsite.getD isite []) acc)
          emptyInfoAcc) := by
        refine accInv_foldl _ ?_ _ _ accInv_empty
        intro acc isite hai
        exact accInv_betweenSitePairs _ _ _ _ _ _ hai
      have hh := Except.ok.inj h
      rw [← hh]
      exact ⟨hacc.1, hacc.2⟩

/-- Witness for C7: a one-site/one-bond site-to-neighbour aggregation
and an empty pair aggregation, both satisfying the lockstep invariant. -/
theorem lobster_c7_totals_witness :
    (∃ info, getInfoIcohpsToNeighbors [] [["1"]] [[mkRat (-1) 1]] 1 (some [1]) none true =
        .ok info ∧
        info.totalIcohp = info.listIcohps.sum ∧ info.nBonds = info.listIcohps.length) ∧
    (∃ info, getInfoIcohpsBetweenNeighbors [] [] 0 (some []) none false .negInf .posInf none =
        .ok info ∧
        info.totalIcohp = info.listIcohps.sum ∧ info.nBonds = info.listIcohps.length) := by
  constructor
  · exact ⟨⟨mkRat (-1) 1, [mkRat (-1) 1], 1, ["1"], [("", "")], some [0]⟩, by decide,
      lobster_c7_totals.1 [] [["1"]] [[mkRat (-1) 1]] 1 (some [1]) none true _ (by decide)⟩
  · exact ⟨⟨0, [], 0, [], [], none⟩, by decide,
      lobster_c7_totals.2 [] [] 0 (some []) none false .negInf .posInf none _ (by decide)⟩

/-! C8: empty adaptation subset. -/

/-- C8: when threshold adaptation is requested under conditions 1–6 and
no record satisfies the condition, the extremum computation fails with
the EmptySelection error, surfaced by `_get_limit_from_extremum` instead
of any default window. -/
theorem lobster_c8_empty_adaptation :
    ∀ (records : List IcohpRecord) (valences : List ℚ) (percentage : ℚ)
      (cond : ℕ) (areCoops areCobis : Bool) (nc : Option ℚ),
      1 ≤ cond → cond ≤ 6 →
      records.filter (condPred cond valences) = [] →
      getLimitFromExtremum records valences percentage true cond areCoops areCobis nc =
        .error .emptySelection := by
  intro records valences percentage cond areCoops areCobis nc h1 h6 hfilter
  have hc0 : (cond == 0) = false := by
    simp only [beq_eq_false_iff_ne, ne_eq]
    omega
  have heb : extremumBased records valences percentage true cond areCoops areCobis =
      .error .emptySelection := by
    rw [extremumBased]
    simp [hc0, h6, hfilter, adaptExtremumToAddCond]
  rw [getLimitFromExtremum, heb]

/-- Witness for C8: adapting to condition 2 over a collection holding
only an Na–Na bond surfaces EmptySelection. -/
theorem lobster_c8_empty_adaptation_witness :
    getLimitFromExtremum [c8Record] [] 1 true 2 false false none =
      .error .emptySelection :=
  lobster_c8_empty_adaptation [c8Record] [] 1 2 false false none (by decide) (by decide)
    (by decide)

/-! C10: zero valence counts as cation. -/

theorem enumMap_getD {α : Type} (f : ℕ × ℚ → α) (d : α) (vals : List ℚ) (i : ℕ)
    (hi : i < vals.length) :
    (vals.enum.map f).getD i d = f (i, vals.getD i 0) := by
  rw [List.getD_eq_getElem?_getD, List.getElem?_map, List.enum_eq_enumFrom,
    List.getElem?_enumFrom, List.getD_eq_getElem?_getD, List.getElem?_eq_getElem hi]
  simp

/-- C10: every cation-restricted operation treats a zero-valence site as
a cation — the shared site-selection of both aggregation queries keeps a
site exactly when its valence is at least 0 (so a zero-valence site is
kept), and the cation-only environment output keeps the cached neighbour
data of a zero-valence site. -/
theorem lobster_c10_zero_valence_cation :
    ∀ (structLen : ℕ) (vals : List ℚ) (lns : List (List NeighborEntry))
      (lni : List (List ℕ)) (i : ℕ),
      (∀ isites, resolveIsites structLen (some vals) none true = .ok isites →
        (i ∈ isites ↔ i < structLen ∧ 0 ≤ vals.getD i 0)) ∧
      (vals.getD i 0 = 0 → i < structLen →
        ∃ isites, resolveIsites structLen (some vals) none true = .ok isites ∧
          i ∈ isites) ∧
      (vals.getD i 0 = 0 → i < vals.length →
        (onlyCationLists vals lns lni).1.getD i [] = lns.getD i [] ∧
        (onlyCationLists vals lns lni).2.getD i [] = lni.getD i []) := by
  intro structLen vals lns lni i
  have hres : resolveIsites structLen (some vals) none true =
      .ok ((List.range structLen).filter fun j => decide (0 ≤ vals.getD j 0)) := rfl
  refine ⟨?_, ?_, ?_⟩
  · intro isites h
    rw [hres] at h
    have hh := Except.ok.inj h
    rw [← hh]
    simp [List.mem_filter, List.mem_range]
  · intro hz hlt
    refine ⟨_, hres, ?_⟩
    rw [List.mem_filter]
    refine ⟨List.mem_range.mpr hlt, ?_⟩
    rw [decide_eq_true_eq, hz]
  · intro hz hlen
    constructor
    · have := enumMap_getD (fun p => if 0 ≤ p.2 then lns.getD p.1 [] else [])
        ([] : List NeighborEntry) vals i hlen
      rw [onlyCationLists]
      rw [this, hz]
      simp
    · have := enumMap_getD (fun p => if 0 ≤ p.2 then lni.getD p.1 [] else [])
        ([] : List ℕ) vals i hlen
      rw [onlyCationLists]
      rw [this, hz]
      simp

/-- Witness for C10: the single zero-valence site of a one-site
structure is selected as a cation. -/
theorem lobster_c10_zero_valence_cation_witness :
    ∃ isites, resolveIsites 1 (some [0]) none true = .ok isites ∧ 0 ∈ isites :=
  (lobster_c10_zero_valence_cation 1 [0] [] [] 0).2.1 (by decide) (by decide)
